import Mathlib

/-!
Shallow embedding of `docs/src/components/NebariSchemaLoader/index.tsx`
(the repository's only source file, containing two near-duplicate variants
of the `NebariConfig` component).

Modelling conventions:
* A JSON-derived JavaScript object field that may be absent is an `Option`.
  (Fields parsed from JSON are never the JS value `undefined`, so `none`
  exactly models an absent key.)
* JS objects with string keys are association lists in insertion order,
  which is the iteration order of `Object.entries` for non-integer keys.
* JS truthiness is modelled per type: a string is truthy iff non-empty,
  an array (even empty) is truthy, `undefined` is falsy, a boolean is
  truthy iff `true`.
* String manipulation is done on `List Char` (Unicode scalar values);
  the schema keys and example texts involved are ASCII, where this agrees
  with JavaScript's UTF-16 code-unit view.
-/

/-- Atomic JSON values, enough for the `default` and `items` fields as the
claims exercise them (the renderer treats both opaquely apart from
`JSON.stringify` on `default`). -/
inductive Json where
  | null
  | bool (b : Bool)
  | num (n : Int)
  | str (s : String)
deriving DecidableEq, Repr

/-- The `type` field of a schema property: `string | string[]` in the source. -/
inductive TypeField where
  | one (s : String)
  | many (l : List String)
deriving DecidableEq, Repr

/-- The `SchemaProperty` type of the source, field for field and in source
order.  Recursive through `properties` (nested objects) and `allOf`
(composition fragments). -/
inductive SchemaProperty where
  | mk
    (deprecated : Option Bool)
    (description : Option String)
    (type : Option TypeField)
    (pattern : Option String)
    (title : Option String)
    (items : Option Json)
    (properties : Option (List (String × SchemaProperty)))
    (enum : Option (List String))
    (default : Option Json)
    (allOf : Option (List SchemaProperty))
    (examples : Option (List String))
    (optionsAre : Option (List String))
    (note : Option String)

def SchemaProperty.deprecated : SchemaProperty → Option Bool
  | .mk d _ _ _ _ _ _ _ _ _ _ _ _ => d

def SchemaProperty.description : SchemaProperty → Option String
  | .mk _ de _ _ _ _ _ _ _ _ _ _ _ => de

def SchemaProperty.type : SchemaProperty → Option TypeField
  | .mk _ _ ty _ _ _ _ _ _ _ _ _ _ => ty

def SchemaProperty.pattern : SchemaProperty → Option String
  | .mk _ _ _ pa _ _ _ _ _ _ _ _ _ => pa

def SchemaProperty.title : SchemaProperty → Option String
  | .mk _ _ _ _ ti _ _ _ _ _ _ _ _ => ti

def SchemaProperty.items : SchemaProperty → Option Json
  | .mk _ _ _ _ _ it _ _ _ _ _ _ _ => it

def SchemaProperty.properties : SchemaProperty → Option (List (String × SchemaProperty))
  | .mk _ _ _ _ _ _ pr _ _ _ _ _ _ => pr

def SchemaProperty.enum : SchemaProperty → Option (List String)
  | .mk _ _ _ _ _ _ _ en _ _ _ _ _ => en

def SchemaProperty.default : SchemaProperty → Option Json
  | .mk _ _ _ _ _ _ _ _ df _ _ _ _ => df

def SchemaProperty.allOf : SchemaProperty → Option (List SchemaProperty)
  | .mk _ _ _ _ _ _ _ _ _ a _ _ _ => a

def SchemaProperty.examples : SchemaProperty → Option (List String)
  | .mk _ _ _ _ _ _ _ _ _ _ ex _ _ => ex

def SchemaProperty.optionsAre : SchemaProperty → Option (List String)
  | .mk _ _ _ _ _ _ _ _ _ _ _ op _ => op

def SchemaProperty.note : SchemaProperty → Option String
  | .mk _ _ _ _ _ _ _ _ _ _ _ _ no => no

/-- Replace the `allOf` field, keeping every other field.  Models
`{ ...property, allOf: undefined }` when applied with `none`. -/
def SchemaProperty.withAllOf : SchemaProperty → Option (List SchemaProperty) → SchemaProperty
  | .mk d de ty pa ti it pr en df _ ex op no, a => .mk d de ty pa ti it pr en df a ex op no

/-- JS truthiness of an optional boolean field (`undefined` and `false` are falsy). -/
def jsTruthyBool (o : Option Bool) : Bool := o.getD false

/-- JS truthiness of an optional string field (`undefined` and `""` are falsy). -/
def jsTruthyStr (o : Option String) : Bool :=
  match o with
  | some s => s != ""
  | none => false

/-- JS truthiness of the `type` field: a non-empty string, or any array
(arrays are truthy even when empty). -/
def jsTruthyType : Option TypeField → Bool
  | some (.one s) => s != ""
  | some (.many _) => true
  | none => false

/-- JS object spread union `{ ...a, ...c }` for string-keyed objects given as
insertion-ordered association lists: keys of `a` keep their position (with the
value from `c` when `c` also has the key), then the new keys of `c` follow in
order. -/
def objUnion (a c : List (String × SchemaProperty)) : List (String × SchemaProperty) :=
  (a.map (fun kv =>
    match c.find? (fun kv2 => kv2.1 == kv.1) with
    | some kv2 => (kv.1, kv2.2)
    | none => kv))
  ++ c.filter (fun kv2 => !(a.any (fun kv => kv.1 == kv2.1)))

/-- One step of the `mergeAllOf` reduce:
`{ ...acc, ...mergeAllOf(cur), properties: { ...acc.properties, ...cur.properties } }`.
`flatCur` is `mergeAllOf(cur)`, `rawCur` is `cur` itself (the source merges the
raw fragment's `properties`, not the flattened one's).  For each field the
spread keeps the accumulator's value unless the (flattened) fragment has the
key; the explicit `properties:` entry always ends up an own key holding the
spread union of the two (possibly empty) `properties` objects.  For `allOf`,
a flattened fragment carries at most an explicit `undefined`, which coincides
with `none` here. -/
def spreadStep (acc flatCur rawCur : SchemaProperty) : SchemaProperty :=
  match acc, flatCur, rawCur with
  | .mk d1 de1 ty1 pa1 ti1 it1 pr1 en1 df1 a1 ex1 op1 no1,
    .mk d2 de2 ty2 pa2 ti2 it2 _ en2 df2 a2 ex2 op2 no2,
    .mk _ _ _ _ _ _ prr _ _ _ _ _ _ =>
    .mk (d2 <|> d1) (de2 <|> de1) (ty2 <|> ty1) (pa2 <|> pa1) (ti2 <|> ti1)
        (it2 <|> it1)
        (some (objUnion (pr1.getD []) (prr.getD [])))
        (en2 <|> en1) (df2 <|> df1) (a2 <|> a1) (ex2 <|> ex1) (op2 <|> op1) (no2 <|> no1)

mutual

/-- `mergeAllOf` from the source: if `allOf` is absent return the property
unchanged, else fold the fragments in array order onto the property with
`allOf` removed.  (`!property.allOf` is also false for `allOf: []`, and
`[].reduce(f, base)` is `base`, so an empty `allOf` array takes the fold
branch and returns the base.) -/
def mergeAllOf : SchemaProperty → SchemaProperty
  | .mk d de ty pa ti it pr en df none ex op no =>
      .mk d de ty pa ti it pr en df none ex op no
  | .mk d de ty pa ti it pr en df (some l) ex op no =>
      mergeList (.mk d de ty pa ti it pr en df none ex op no) l

/-- The `property.allOf.reduce(...)` fold of `mergeAllOf`. -/
def mergeList : SchemaProperty → List SchemaProperty → SchemaProperty
  | acc, [] => acc
  | acc, cur :: rest => mergeList (spreadStep acc (mergeAllOf cur) cur) rest

end

/-- `lastWins init l` is the value of an optional field after a sequence of JS
spreads: the last present (`some`) value wins, starting from `init`. -/
def lastWins (init : Option α) (l : List (Option α)) : Option α :=
  l.foldl (fun a b => b <|> a) init

/-- A property with every field absent (`{}`). -/
def emptyProp : SchemaProperty :=
  .mk none none none none none none none none none none none none none

/-- A property carrying only a `properties` object. -/
def propProps (ps : List (String × SchemaProperty)) : SchemaProperty :=
  .mk none none none none none none (some ps) none none none none none none

/-- A property carrying only an `allOf` array. -/
def propAllOf (l : List SchemaProperty) : SchemaProperty :=
  .mk none none none none none none none none none (some l) none none none

/-- A property carrying only a `type`. -/
def propType (t : TypeField) : SchemaProperty :=
  .mk none none (some t) none none none none none none none none none none

/-- A property carrying only a `type` and a `default`. -/
def propTypeDefault (t : TypeField) (d : Json) : SchemaProperty :=
  .mk none none (some t) none none none none none (some d) none none none none

/- ### Table of contents and section rendering (first variant) -/

/-- The anchor derived from a property name: `key.replace(/_/g, "-")`. -/
def anchorOf (s : String) : String :=
  String.mk (s.data.map (fun c => if c = '_' then '-' else c))

/-- The string JavaScript compares when `Array.prototype.sort()` is called
with no comparator on `Object.entries` output: each entry `[key, value]` is
converted by `String`, giving `key + "," + "[object Object]"` since every
schema property value is a plain object. -/
def jsKey (kv : String × SchemaProperty) : List Char :=
  (kv.1 ++ ",[object Object]").data

/-- The default-sort comparison between two entries (code-unit lexicographic
comparison of their string conversions). -/
def entryLe (a b : String × SchemaProperty) : Prop := jsKey a ≤ jsKey b

instance : DecidableRel entryLe := fun _ _ => inferInstanceAs (Decidable (_ ≤ _))

instance : IsTotal (String × SchemaProperty) entryLe := ⟨fun _ _ => le_total _ _⟩

instance : IsTrans (String × SchemaProperty) entryLe := ⟨fun _ _ _ h1 h2 => le_trans h1 h2⟩

/-- `Object.entries(schema.properties).sort()`: a stable sort under the
default string comparison.  (JS `sort` is stable and the comparison is a
total preorder, so any stable sort — here insertion sort — computes it.) -/
def jsEntrySort (l : List (String × SchemaProperty)) : List (String × SchemaProperty) :=
  List.insertionSort entryLe l

/-- One entry of the `SchemaToc` list: the link text is the key, struck
through when `value.deprecated` is truthy; no badge is rendered in the TOC. -/
structure TocEntry where
  anchor : String
  label : String
  struck : Bool
  badge : Bool
deriving DecidableEq, Repr

/-- The render of a single `<li>` of `SchemaToc`. -/
def tocEntry (kv : String × SchemaProperty) : TocEntry :=
  { anchor := anchorOf kv.1
    label := kv.1
    struck := jsTruthyBool kv.2.deprecated
    badge := false }

/-- `SchemaToc`: sorted entries, one list item each. -/
def schemaToc (props : List (String × SchemaProperty)) : List TocEntry :=
  (jsEntrySort props).map tocEntry

/-- A heading as produced by `PropertieTitle` (first variant) or
`PropertyDetail` (second variant). -/
structure HeadingNode where
  text : String
  anchor : String
  level : Nat
  struck : Bool
  badge : Bool
deriving DecidableEq, Repr

/-- `PropertieTitle` (first variant): `h3` when `subHeading` else `h2`; the
title text is never struck through; a "Deprecated" badge is appended inside
the heading when the `deprecated` argument is truthy. -/
def propertieTitle (title : String) (subHeading : Bool) (deprecated : Option Bool) : HeadingNode :=
  { text := title
    anchor := anchorOf title
    level := if subHeading then 3 else 2
    struck := false
    badge := jsTruthyBool deprecated }

/-- The `value.allOf && value.allOf.length > 0 ? (value.allOf[0].properties ? ... : null) : null`
gate of `PropertiesList`: the collapsible "Available Options" section is
emitted iff `allOf` is a non-empty array whose first fragment has a
`properties` key (any object, even empty, is truthy); its contents are
`mergeAllOf(value).properties ?? {}`. -/
def availableOptionsSection (v : SchemaProperty) : Option (List (String × SchemaProperty)) :=
  match v.allOf with
  | some (first :: _) =>
    match first.properties with
    | some _ => some ((mergeAllOf v).properties.getD [])
    | none => none
  | _ => none

/- ### PropertyContent (first variant) -/

/-- `JSON.stringify` on the atomic JSON values modelled here (no escaping is
needed for the strings the claims use). -/
def jsonStringify : Json → String
  | .null => "null"
  | .bool true => "true"
  | .bool false => "false"
  | .num n => toString n
  | .str s => "\"" ++ s ++ "\""

/-- The text of the Type row: joined with ", " when `type` is an array. -/
def typeRowText : TypeField → String
  | .one s => s
  | .many l => String.intercalate ", " l

/-- `hasTableData` from `PropertyContent`:
`property.type || property.default !== undefined || property.enum || property.optionsAre || property.pattern || property.deprecated`. -/
def hasTableData (p : SchemaProperty) : Bool :=
  jsTruthyType p.type || p.default.isSome || p.enum.isSome || p.optionsAre.isSome ||
    jsTruthyStr p.pattern || jsTruthyBool p.deprecated

/-- The rows of the details table, one per truthy field among the five
row-producing fields, in source order.  `deprecated` produces no row. -/
def tableRows (p : SchemaProperty) : List (String × String) :=
  (match p.type with
    | some t => if jsTruthyType (some t) then [("Type:", typeRowText t)] else []
    | none => [])
  ++ (match p.default with
    | some d => [("Default:", jsonStringify d)]
    | none => [])
  ++ (match p.enum with
    | some l => [("Available options:", String.intercalate ", " l)]
    | none => [])
  ++ (match p.optionsAre with
    | some l => [("Options:", String.intercalate ", " l)]
    | none => [])
  ++ (match p.pattern with
    | some s => if s != "" then [("Pattern:", s)] else []
    | none => [])

/-- The details table of `PropertyContent`: present iff `hasTableData`,
holding `tableRows`. -/
def propertyContentTable (p : SchemaProperty) : Option (List (String × String)) :=
  if hasTableData p then some (tableRows p) else none

/-- One rendered section of `PropertiesList` (first variant), one level deep:
heading, details table, and the properties handed to the recursive
"Available Options" call (left unexpanded; the claims quantify over the gate
and the handed-over map).  The description, examples and note blocks carry no
claim-relevant structure beyond presence and are omitted here. -/
structure SectionV1 where
  key : String
  heading : HeadingNode
  table : Option (List (String × String))
  availableOptions : Option (List (String × SchemaProperty))

/-- `PropertiesList` (first variant): `Object.entries(properties).map(...)` —
no sorting, entries in insertion order. -/
def propertiesList (subHeading : Bool) (props : List (String × SchemaProperty)) :
    List SectionV1 :=
  props.map (fun kv =>
    { key := kv.1
      heading := propertieTitle kv.1 subHeading kv.2.deprecated
      table := propertyContentTable kv.2
      availableOptions := availableOptionsSection kv.2 })

/-- The keys of the top-level sections in render order. -/
def propertiesListKeys (props : List (String × SchemaProperty)) : List String :=
  (propertiesList false props).map SectionV1.key

/-- The labels of the table of contents in render order. -/
def schemaTocLabels (props : List (String × SchemaProperty)) : List String :=
  (schemaToc props).map TocEntry.label

/- ### MarkdownCodeSeparator (first variant) -/

/-- Whitespace as JavaScript's `\s` / `trim` see it (the ASCII cases; the
inputs involved use only spaces and newlines). -/
def isJsSpace (c : Char) : Bool := c.isWhitespace

/-- Trim leading and trailing whitespace, as `String.prototype.trim`. -/
def trimChars (l : List Char) : List Char :=
  ((l.dropWhile isJsSpace).reverse.dropWhile isJsSpace).reverse

/-- Index of the first occurrence of `needle` in `hay`, as regex/`indexOf`
leftmost-match search. -/
def findSub (needle : List Char) : List Char → Option Nat
  | [] => none
  | hay@(_ :: rest) =>
      if needle.isPrefixOf hay then some 0
      else (findSub needle rest).map (· + 1)

/-- `input.match(/```yaml[\s\S]*?```/)`: the leftmost occurrence of an
opening fence followed lazily (shortest expansion) by the next closing
fence.  Returns `(start, inner, length)` of the whole match, where `inner`
is the text strictly between the fences — exactly what the source's global
`replace(/```yaml|```/g, '')` leaves of the matched block, since the lazy
body contains no fence. -/
def yamlBlockMatch (input : List Char) : Option (Nat × List Char × Nat) :=
  match findSub "```yaml".data input with
  | none => none
  | some i =>
    let afterOpen := input.drop (i + 7)
    match findSub "```".data afterOpen with
    | none => none
    | some k => some (i, afterOpen.take k, 7 + k + 3)

/-- `"..."​.split('\n')` on character lists. -/
def splitLines : List Char → List (List Char)
  | [] => [[]]
  | c :: rest =>
    let ls := splitLines rest
    if c = '\n' then [] :: ls
    else
      match ls with
      | h :: t => (c :: h) :: t
      | [] => [[c]]

/-- `lines.join('\n')` on character lists. -/
def joinLines (ls : List (List Char)) : List Char :=
  List.intercalate ['\n'] ls

/-- `line.search(/\S/)`: column of the first non-whitespace character. -/
def firstNonSpaceCol (l : List Char) : Nat :=
  l.findIdx (fun c => !isJsSpace c)

/-- The indentation-normalisation step of `parseContent`: split into lines,
take the minimum of `search(/\S/)` over the non-blank lines (`Infinity` when
there is none, in which case every line becomes `substring(Infinity) = ""`),
and drop that many characters from every line. -/
def normalizeIndent (code : List Char) : List Char :=
  let lines := splitLines code
  let nonblank := lines.filter (fun l => !(trimChars l).isEmpty)
  match (nonblank.map firstNonSpaceCol).min? with
  | none => joinLines (lines.map (fun _ => []))
  | some m => joinLines (lines.map (List.drop m))

/-- `parseContent` from `MarkdownCodeSeparator`: extract the fenced yaml
block (if any), strip the fences, `trim`, then normalise indentation; the
briefing is the input with the matched block removed, trimmed.  Returns
`(briefing, codeBlock)`. -/
def parseContent (input : String) : String × String :=
  match yamlBlockMatch input.data with
  | none => (String.mk (trimChars input.data), "")
  | some (i, inner, len) =>
    (String.mk (trimChars (input.data.take i ++ input.data.drop (i + len))),
     String.mk (normalizeIndent (trimChars inner)))

/-- The render result of `MarkdownCodeSeparator`. -/
inductive ExamplesRender where
  /-- `<div>No examples provided</div>`, the defensive fallback for a
  non-array `examples` value. -/
  | placeholder
  /-- A tab group, one `(briefing, code)` pair per example. -/
  | tabs (items : List (String × String))
  /-- A single tabless example. -/
  | single (briefing code : String)
  /-- The JS `TypeError` thrown by `parseContent(undefined)` when the single-
  example branch reads `examples[0]` of an empty array (`undefined.match`). -/
  | jsTypeError
deriving DecidableEq, Repr

/-- `MarkdownCodeSeparator`: `none` models any non-array `examples` value
(`Array.isArray` fails); an array of length greater than one renders tabs;
otherwise the single-example branch parses `examples[0]`. -/
def markdownCodeSeparator (examples : Option (List String)) : ExamplesRender :=
  match examples with
  | none => .placeholder
  | some l =>
    if l.length > 1 then
      .tabs (l.map parseContent)
    else
      match l with
      | e :: _ => .single (parseContent e).1 (parseContent e).2
      | [] => .jsTypeError

/- ### Second variant: PropertyDetail -/

/-- The heading of `PropertyDetail` (second variant): name struck through
when `deprecated` is truthy; the badge is a separate paragraph, not part of
the heading.  `level` defaults to 1 at the call site, giving `h3`. -/
def propertyDetailHeading (name : String) (p : SchemaProperty) (level : Nat) : HeadingNode :=
  { text := name
    anchor := anchorOf name
    level := level + 2
    struck := jsTruthyBool p.deprecated
    badge := false }

/-- The `<p><span class="badge">Deprecated</span></p>` paragraph of
`PropertyDetail`, emitted iff `property.deprecated` is truthy. -/
def propertyDetailBadgePara (p : SchemaProperty) : Bool :=
  jsTruthyBool p.deprecated

/- ### Schema loaders -/

/-- The observable outcome of the `fetch` call: `ok`/`status`/`statusText`
from the HTTP response, and the result of `response.json()` (`Except.error`
when the body is not valid JSON, carrying the parser's message). -/
structure FetchResponse where
  ok : Bool
  status : Nat
  statusText : String
  body : Except String Json
deriving Repr

/-- The state the component settles in once `fetchSchema` finishes (the
`finally` clause always clears `loading`). -/
inductive LoaderState where
  | loading
  | error (msg : String)
  | ready (schema : Json)
deriving DecidableEq, Repr

/-- `fetchSchema` of the first variant's `useSchema`: throws
`Failed to fetch schema: ${status} ${statusText}` on a non-ok response, else
parses the body and hands it to the reference resolver (`resolve` models the
external `Resolver`, whose rejection is caught like any other error). -/
def fetchSchemaV1 (resolve : Json → Except String Json) (resp : FetchResponse) : LoaderState :=
  if resp.ok then
    match resp.body with
    | .error m => .error m
    | .ok j =>
      match resolve j with
      | .error m => .error m
      | .ok s => .ready s
  else
    .error ("Failed to fetch schema: " ++ toString resp.status ++ " " ++ resp.statusText)

/-- `fetchSchema` of the second variant's `useSchema`: no `response.ok`
check — the body is parsed and resolved regardless of the HTTP status. -/
def fetchSchemaV2 (resolve : Json → Except String Json) (resp : FetchResponse) : LoaderState :=
  match resp.body with
  | .error m => .error m
  | .ok j =>
    match resolve j with
    | .error m => .error m
    | .ok s => .ready s

/- ### General lemmas about the flattener -/

theorem mergeList_field (f : SchemaProperty → Option α)
    (hf : ∀ acc fc rc, f (spreadStep acc fc rc) = (f fc <|> f acc)) :
    ∀ (l : List SchemaProperty) (acc : SchemaProperty),
      f (mergeList acc l) = lastWins (f acc) (l.map (fun c => f (mergeAllOf c))) := by
  intro l
  induction l with
  | nil => intro acc; rfl
  | cons c rest ih =>
    intro acc
    rw [mergeList, ih, hf]
    rfl

theorem spreadStep_allOf (acc fc rc : SchemaProperty) :
    (spreadStep acc fc rc).allOf = (fc.allOf <|> acc.allOf) := by
  cases acc; cases fc; cases rc; rfl

theorem lastWins_none_of_all_none (l : List SchemaProperty) :
    lastWins (none : Option α) (l.map (fun _ => (none : Option α))) = none := by
  induction l with
  | nil => rfl
  | cons c rest ih => simpa [lastWins, List.foldl] using ih

theorem mergeAllOf_eq_of_allOf_none (p : SchemaProperty) (h : p.allOf = none) :
    mergeAllOf p = p := by
  cases p with
  | mk d de ty pa ti it pr en df a ex op no =>
    cases a with
    | none => rfl
    | some l => simp [SchemaProperty.allOf] at h

theorem mergeAllOf_eq_of_allOf_some (p : SchemaProperty) (l : List SchemaProperty)
    (h : p.allOf = some l) : mergeAllOf p = mergeList (p.withAllOf none) l := by
  cases p with
  | mk d de ty pa ti it pr en df a ex op no =>
    cases a with
    | none => simp [SchemaProperty.allOf] at h
    | some l' =>
      have : l' = l := by simpa [SchemaProperty.allOf] using h
      subst this
      rfl

/-- The output of the flattener never carries an `allOf` field. -/
theorem allOf_mergeAllOf : ∀ p : SchemaProperty, (mergeAllOf p).allOf = none := by
  refine mergeAllOf.induct
    (fun p => (mergeAllOf p).allOf = none)
    (fun acc l => acc.allOf = none → (mergeList acc l).allOf = none)
    ?h1 ?h2 ?h3 ?h4
  case h1 => intro d de ty pa ti it pr en df ex op no; rfl
  case h2 =>
    intro d de ty pa ti it pr en df l ex op no ih
    rw [mergeAllOf]
    exact ih rfl
  case h3 => intro acc h; rw [mergeList]; exact h
  case h4 =>
    intro acc cur rest ih1 ih2 hacc
    rw [mergeList]
    refine ih2 ?_
    rw [spreadStep_allOf, ih1, hacc]
    rfl

theorem mergeAllOf_idem (p : SchemaProperty) : mergeAllOf (mergeAllOf p) = mergeAllOf p :=
  mergeAllOf_eq_of_allOf_none (mergeAllOf p) (allOf_mergeAllOf p)

/- ### Claims -/

/-- Claim C1: the claim says keys revealed only by a fragment's own nested
`allOf` are unioned into the accumulator's `properties`.  The code evaluated
at the failing input `{allOf: [{allOf: [{properties: {a: {}}}]}]}` shows the
opposite: the explicit `properties:` merge uses the fragment's raw
`properties` (absent here), wholesale-overwriting the recursively flattened
fragment's `properties` spread just before it, so the flattened `properties`
is empty and the key `a` is dropped — even though flattening the fragment
alone does reveal `a`.  (The claim's flat two-fragment example, by contrast,
does union both keys.) -/
theorem mergeAllOf_drops_nested_allOf_properties :
    ((mergeAllOf (propAllOf [propAllOf [propProps [("a", emptyProp)]]])).properties.getD []).isEmpty
      = true
    ∧ (((mergeAllOf (propAllOf [propProps [("a", emptyProp)]])).properties.getD []).any
        (fun kv => kv.1 == "a")) = true
    ∧ (((mergeAllOf (propAllOf [propProps [("a", emptyProp), ("c", emptyProp)],
          propProps [("b", emptyProp)]])).properties.getD []).any (fun kv => kv.1 == "a")) = true
    ∧ (((mergeAllOf (propAllOf [propProps [("a", emptyProp), ("c", emptyProp)],
          propProps [("b", emptyProp)]])).properties.getD []).any (fun kv => kv.1 == "b")) = true := by
  decide

/-- Claim C4: the claim (and the spec) say the extracted code block
re-indents so the least-indented line reaches column zero, giving
`"foo: 1\n  bar: 2"`.  The code's `trim()` on the extracted block runs
before the minimum indentation is computed, so the first line's two-space
indent is already gone, the computed minimum is 0, and the second line keeps
all four spaces: the code yields `"foo: 1\n    bar: 2"` (the normalisation
step can never fire on a non-empty block).  The commentary part behaves as
claimed. -/
theorem parseContent_trim_defeats_reindent :
    parseContent "Intro text.\n```yaml\n  foo: 1\n    bar: 2\n```"
      = ("Intro text.", "foo: 1\n    bar: 2")
    ∧ parseContent "Intro text.\n```yaml\n  foo: 1\n    bar: 2\n```"
      ≠ ("Intro text.", "foo: 1\n  bar: 2") := by
  decide

/-- Claim C5: scalar/simple fields merge with last-fragment-wins semantics:
after flattening, each of the nine scalar fields equals the last value
present among the accumulator's field followed by the flattened fragments'
fields in array order (a fragment lacking the field leaves it unchanged);
in particular `allOf = [{type: "string"}, {type: "number", default: 1}]`
flattens to `type = "number"`, `default = 1`. -/
theorem mergeAllOf_scalar_last_fragment_wins :
    (∀ (p : SchemaProperty) (l : List SchemaProperty), p.allOf = some l →
      ((mergeAllOf p).type = lastWins p.type (l.map (fun c => (mergeAllOf c).type))
      ∧ (mergeAllOf p).default = lastWins p.default (l.map (fun c => (mergeAllOf c).default))
      ∧ (mergeAllOf p).enum = lastWins p.enum (l.map (fun c => (mergeAllOf c).enum))
      ∧ (mergeAllOf p).description
          = lastWins p.description (l.map (fun c => (mergeAllOf c).description))
      ∧ (mergeAllOf p).pattern = lastWins p.pattern (l.map (fun c => (mergeAllOf c).pattern))
      ∧ (mergeAllOf p).optionsAre
          = lastWins p.optionsAre (l.map (fun c => (mergeAllOf c).optionsAre))
      ∧ (mergeAllOf p).note = lastWins p.note (l.map (fun c => (mergeAllOf c).note))
      ∧ (mergeAllOf p).title = lastWins p.title (l.map (fun c => (mergeAllOf c).title))
      ∧ (mergeAllOf p).deprecated
          = lastWins p.deprecated (l.map (fun c => (mergeAllOf c).deprecated))))
    ∧ (mergeAllOf (propAllOf [propType (.one "string"), propTypeDefault (.one "number") (.num 1)])).type
        = some (.one "number")
    ∧ (mergeAllOf (propAllOf [propType (.one "string"), propTypeDefault (.one "number") (.num 1)])).default
        = some (.num 1) := by
  refine ⟨?_, by decide, by decide⟩
  intro p l h
  rw [mergeAllOf_eq_of_allOf_some p l h]
  refine ⟨?_, ?_, ?_, ?_, ?_, ?_, ?_, ?_, ?_⟩ <;>
    first
    | (rw [mergeList_field SchemaProperty.type
          (fun acc fc rc => by cases acc; cases fc; cases rc; rfl)]
       cases p; rfl)
    | (rw [mergeList_field SchemaProperty.default
          (fun acc fc rc => by cases acc; cases fc; cases rc; rfl)]
       cases p; rfl)
    | (rw [mergeList_field SchemaProperty.enum
          (fun acc fc rc => by cases acc; cases fc; cases rc; rfl)]
       cases p; rfl)
    | (rw [mergeList_field SchemaProperty.description
          (fun acc fc rc => by cases acc; cases fc; cases rc; rfl)]
       cases p; rfl)
    | (rw [mergeList_field SchemaProperty.pattern
          (fun acc fc rc => by cases acc; cases fc; cases rc; rfl)]
       cases p; rfl)
    | (rw [mergeList_field SchemaProperty.optionsAre
          (fun acc fc rc => by cases acc; cases fc; cases rc; rfl)]
       cases p; rfl)
    | (rw [mergeList_field SchemaProperty.note
          (fun acc fc rc => by cases acc; cases fc; cases rc; rfl)]
       cases p; rfl)
    | (rw [mergeList_field SchemaProperty.title
          (fun acc fc rc => by cases acc; cases fc; cases rc; rfl)]
       cases p; rfl)
    | (rw [mergeList_field SchemaProperty.deprecated
          (fun acc fc rc => by cases acc; cases fc; cases rc; rfl)]
       cases p; rfl)

/-- Witness for C5 at the claim's concrete input, discharging the
`allOf = some l` hypothesis. -/
theorem mergeAllOf_scalar_last_fragment_wins_witness :
    (mergeAllOf (propAllOf [propType (.one "string"), propTypeDefault (.one "number") (.num 1)])).type
      = lastWins (propAllOf [propType (.one "string"), propTypeDefault (.one "number") (.num 1)]).type
          ([propType (.one "string"), propTypeDefault (.one "number") (.num 1)].map
            (fun c => (mergeAllOf c).type)) :=
  (mergeAllOf_scalar_last_fragment_wins.1
    (propAllOf [propType (.one "string"), propTypeDefault (.one "number") (.num 1)])
    [propType (.one "string"), propTypeDefault (.one "number") (.num 1)] rfl).1

/-- Claim C6: the flattener is the identity on a property without `allOf`
(hence idempotent, since its output never carries `allOf`), and a property
with an empty `allOf` array flattens to itself with only the `allOf` key
removed (the empty fold returns the base accumulator). -/
theorem mergeAllOf_identity_on_flat :
    (∀ p : SchemaProperty, p.allOf = none → mergeAllOf p = p)
    ∧ (∀ p : SchemaProperty, mergeAllOf (mergeAllOf p) = mergeAllOf p)
    ∧ (∀ p : SchemaProperty, p.allOf = some [] → mergeAllOf p = p.withAllOf none) := by
  refine ⟨mergeAllOf_eq_of_allOf_none, mergeAllOf_idem, ?_⟩
  intro p h
  rw [mergeAllOf_eq_of_allOf_some p [] h, mergeList]

/-- Witness for C6 at concrete inputs, discharging both hypotheses. -/
theorem mergeAllOf_identity_on_flat_witness :
    mergeAllOf emptyProp = emptyProp
    ∧ mergeAllOf (propAllOf []) = (propAllOf []).withAllOf none :=
  ⟨mergeAllOf_identity_on_flat.1 emptyProp rfl,
   mergeAllOf_identity_on_flat.2.2 (propAllOf []) rfl⟩

/-- Counterexample to claim C2 as stated: with `{zeta, alpha}` in document
order, the table of contents lists `alpha` first but the rendered sections
keep document order, `zeta` first — the two orders differ. -/
theorem propertiesList_order_counterexample :
    propertiesListKeys [("zeta", emptyProp), ("alpha", emptyProp)] = ["zeta", "alpha"]
    ∧ schemaTocLabels [("zeta", emptyProp), ("alpha", emptyProp)] = ["alpha", "zeta"]
    ∧ propertiesListKeys [("zeta", emptyProp), ("alpha", emptyProp)]
        ≠ schemaTocLabels [("zeta", emptyProp), ("alpha", emptyProp)] := by
  decide

/-- Claim C2 (amended): only the table of contents is sorted —
`SchemaToc` sorts the entries by the default string comparison (the key
followed by `",[object Object]"`, which is lexicographic by key for
ordinary keys) while `PropertiesList` renders the sections in
document/insertion order: its keys are exactly the input keys in order, and
the TOC labels are a permutation of them in sorted order. -/
theorem schemaToc_sorted_sections_insertion_order :
    ∀ props : List (String × SchemaProperty),
      propertiesListKeys props = props.map Prod.fst
      ∧ List.Perm (schemaTocLabels props) (props.map Prod.fst)
      ∧ List.Pairwise
          (fun a b : TocEntry => (a.label ++ ",[object Object]").data ≤ (b.label ++ ",[object Object]").data)
          (schemaToc props) := by
  intro props
  refine ⟨?_, ?_, ?_⟩
  · simp [propertiesListKeys, propertiesList]
  · have h1 : schemaTocLabels props = (jsEntrySort props).map Prod.fst := by
      simp [schemaTocLabels, schemaToc, tocEntry]
    rw [h1]
    exact (List.perm_insertionSort entryLe props).map Prod.fst
  · have h := List.sorted_insertionSort entryLe props
    exact List.Pairwise.map tocEntry (fun a b hab => hab) h

/-- Counterexample to claim C3 as stated: a property whose flattened form
exposes a non-empty `properties` map but whose first `allOf` fragment has no
`properties` key gets no "Available Options" section at all. -/
theorem availableOptions_gate_counterexample :
    ((mergeAllOf (propAllOf [propType (.one "string"), propProps [("a", emptyProp)]])).properties.getD
      []).isEmpty = false
    ∧ (availableOptionsSection
        (propAllOf [propType (.one "string"), propProps [("a", emptyProp)]])).isNone = true := by
  decide

/-- Claim C3 (amended): the collapsible "Available Options" section is
emitted exactly when `allOf` is present, non-empty, and its **first**
fragment has a `properties` key; when emitted it contains the flattened
effective `properties` map, which may be empty — so an empty collapsible
section is emitted for `allOf = [{properties: {}}]`, and no section is
emitted when the first fragment lacks `properties` even if flattening would
expose some, or when `allOf` is absent or empty. -/
theorem availableOptions_first_fragment_gate :
    (∀ (v first : SchemaProperty) (rest : List SchemaProperty),
        v.allOf = some (first :: rest) → first.properties.isSome = true →
        availableOptionsSection v = some ((mergeAllOf v).properties.getD []))
    ∧ (∀ (v first : SchemaProperty) (rest : List SchemaProperty),
        v.allOf = some (first :: rest) → first.properties = none →
        availableOptionsSection v = none)
    ∧ (∀ v : SchemaProperty, v.allOf = none → availableOptionsSection v = none)
    ∧ (∀ v : SchemaProperty, v.allOf = some [] → availableOptionsSection v = none)
    ∧ availableOptionsSection (propAllOf [propProps []]) = some [] := by
  refine ⟨?_, ?_, ?_, ?_, rfl⟩
  · intro v first rest h hp
    rcases Option.isSome_iff_exists.mp hp with ⟨ps, hps⟩
    simp [availableOptionsSection, h, hps]
  · intro v first rest h hp
    simp [availableOptionsSection, h, hp]
  · intro v h
    simp [availableOptionsSection, h]
  · intro v h
    simp [availableOptionsSection, h]

/-- Witness for C3 (amended), discharging the gate hypotheses at a concrete
input. -/
theorem availableOptions_first_fragment_gate_witness :
    availableOptionsSection (propAllOf [propProps [("a", emptyProp)]])
      = some ((mergeAllOf (propAllOf [propProps [("a", emptyProp)]])).properties.getD []) :=
  availableOptions_first_fragment_gate.1 (propAllOf [propProps [("a", emptyProp)]])
    (propProps [("a", emptyProp)]) [] rfl rfl

/-- Counterexample to claim C7 as stated: a property with only
`deprecated: true` has none of the five row-producing fields yet
`hasTableData` is true, so the table is emitted — with zero rows. -/
theorem propertyContentTable_deprecated_only_counterexample :
    (jsTruthyType (SchemaProperty.mk (some true) none none none none none none none none none
        none none none).type
      || (SchemaProperty.mk (some true) none none none none none none none none none
          none none none).default.isSome
      || (SchemaProperty.mk (some true) none none none none none none none none none
          none none none).enum.isSome
      || (SchemaProperty.mk (some true) none none none none none none none none none
          none none none).optionsAre.isSome
      || jsTruthyStr (SchemaProperty.mk (some true) none none none none none none none none none
          none none none).pattern) = false
    ∧ propertyContentTable (SchemaProperty.mk (some true) none none none none none none none none
        none none none none) = some [] := by
  decide

/-- Claim C7 (amended): the details table is emitted exactly when one of the
five row-producing fields (`type`, `default`, `enum`, `optionsAre`,
`pattern`) is truthy **or** `deprecated` is truthy, and it holds one row per
truthy row-producing field — so a property with only `deprecated: true`
yields a table with zero rows instead of no table. -/
theorem propertyContentTable_characterization :
    ∀ p : SchemaProperty,
      (propertyContentTable p).isSome
        = (jsTruthyType p.type || p.default.isSome || p.enum.isSome || p.optionsAre.isSome
            || jsTruthyStr p.pattern || jsTruthyBool p.deprecated)
      ∧ ((propertyContentTable p).getD []).length
        = ((if jsTruthyType p.type then 1 else 0) + (if p.default.isSome then 1 else 0)
            + (if p.enum.isSome then 1 else 0) + (if p.optionsAre.isSome then 1 else 0)
            + (if jsTruthyStr p.pattern then 1 else 0)) := by
  intro p
  constructor
  · rw [propertyContentTable]
    cases h : hasTableData p
    · rw [hasTableData] at h
      simp [h]
    · rw [hasTableData] at h
      simp [h]
  · rw [propertyContentTable]
    cases h : hasTableData p
    · rw [hasTableData] at h
      simp only [Bool.or_eq_false_iff] at h
      obtain ⟨⟨⟨⟨⟨h1, h2⟩, h3⟩, h4⟩, h5⟩, h6⟩ := h
      simp [h1, h2, h3, h4, h5]
    · have hlen : (tableRows p).length
          = ((if jsTruthyType p.type then 1 else 0) + (if p.default.isSome then 1 else 0)
              + (if p.enum.isSome then 1 else 0) + (if p.optionsAre.isSome then 1 else 0)
              + (if jsTruthyStr p.pattern then 1 else 0)) := by
        cases p with
        | mk d de ty pa ti it pr en df a ex op no =>
          simp only [tableRows, SchemaProperty.type, SchemaProperty.default, SchemaProperty.enum,
            SchemaProperty.optionsAre, SchemaProperty.pattern, jsTruthyStr, List.length_append]
          cases ty <;> cases df <;> cases en <;> cases op <;> cases pa <;>
            simp [jsTruthyType] <;> split_ifs <;> simp_all
      simp [hlen]

/-- Counterexample to claim C8 as stated: for a deprecated property, the
table-of-contents entry is struck through but carries no badge, and the
first variant's section heading carries the badge but is not struck
through — neither place shows both. -/
theorem deprecated_rendering_counterexample :
    (tocEntry ("k", SchemaProperty.mk (some true) none none none none none none none none none
        none none none)).struck = true
    ∧ (tocEntry ("k", SchemaProperty.mk (some true) none none none none none none none none none
        none none none)).badge = false
    ∧ (propertieTitle "k" false (some true)).badge = true
    ∧ (propertieTitle "k" false (some true)).struck = false := by
  decide

/-- Claim C8 (amended): for a property with truthy `deprecated`, the TOC
entry shows the name struck through with no badge; the first variant's
section heading shows the badge but no strikethrough; the second variant's
section heading is struck through with the badge in a separate paragraph
below it.  A property whose `deprecated` is absent or `false` gets none of
these markers anywhere. -/
theorem deprecated_rendering_characterization :
    ∀ (key : String) (p : SchemaProperty) (level : Nat),
      (jsTruthyBool p.deprecated = true →
        (tocEntry (key, p)).struck = true ∧ (tocEntry (key, p)).badge = false
        ∧ (propertieTitle key false p.deprecated).struck = false
        ∧ (propertieTitle key false p.deprecated).badge = true
        ∧ (propertyDetailHeading key p level).struck = true
        ∧ (propertyDetailHeading key p level).badge = false
        ∧ propertyDetailBadgePara p = true)
      ∧ (jsTruthyBool p.deprecated = false →
        (tocEntry (key, p)).struck = false ∧ (tocEntry (key, p)).badge = false
        ∧ (propertieTitle key false p.deprecated).struck = false
        ∧ (propertieTitle key false p.deprecated).badge = false
        ∧ (propertyDetailHeading key p level).struck = false
        ∧ (propertyDetailHeading key p level).badge = false
        ∧ propertyDetailBadgePara p = false) := by
  intro key p level
  constructor
  · intro h
    simp [tocEntry, propertieTitle, propertyDetailHeading, propertyDetailBadgePara, h]
  · intro h
    simp [tocEntry, propertieTitle, propertyDetailHeading, propertyDetailBadgePara, h]

/-- Witness for C8 (amended) at a concrete deprecated and a concrete
non-deprecated property. -/
theorem deprecated_rendering_characterization_witness :
    ((tocEntry ("k", SchemaProperty.mk (some true) none none none none none none none none none
        none none none)).struck = true
      ∧ (tocEntry ("k", SchemaProperty.mk (some true) none none none none none none none none none
          none none none)).badge = false
      ∧ (propertieTitle "k" false (SchemaProperty.mk (some true) none none none none none none none
          none none none none none).deprecated).struck = false
      ∧ (propertieTitle "k" false (SchemaProperty.mk (some true) none none none none none none none
          none none none none none).deprecated).badge = true
      ∧ (propertyDetailHeading "k" (SchemaProperty.mk (some true) none none none none none none none
          none none none none none) 1).struck = true
      ∧ (propertyDetailHeading "k" (SchemaProperty.mk (some true) none none none none none none none
          none none none none none) 1).badge = false
      ∧ propertyDetailBadgePara (SchemaProperty.mk (some true) none none none none none none none
          none none none none none) = true)
    ∧ ((tocEntry ("k", emptyProp)).struck = false ∧ (tocEntry ("k", emptyProp)).badge = false
      ∧ (propertieTitle "k" false emptyProp.deprecated).struck = false
      ∧ (propertieTitle "k" false emptyProp.deprecated).badge = false
      ∧ (propertyDetailHeading "k" emptyProp 1).struck = false
      ∧ (propertyDetailHeading "k" emptyProp 1).badge = false
      ∧ propertyDetailBadgePara emptyProp = false) :=
  ⟨(deprecated_rendering_characterization "k"
      (SchemaProperty.mk (some true) none none none none none none none none none none none none)
      1).1 (by decide),
   (deprecated_rendering_characterization "k" emptyProp 1).2 (by decide)⟩

/-- Counterexample to claim C9 as stated: the second loader variant never
checks `response.ok`, so a 404 response whose body happens to parse as JSON
ends in the Ready state — not Error. -/
theorem fetchSchemaV2_nonOk_ready_counterexample :
    (FetchResponse.mk false 404 "Not Found" (.ok .null)).ok = false
    ∧ fetchSchemaV2 (fun j => .ok j) (FetchResponse.mk false 404 "Not Found" (.ok .null))
        = .ready .null :=
  ⟨rfl, rfl⟩

/-- Claim C9 (amended): only the first loader variant guards the HTTP
status: any non-ok response ends in the Error state with the message
`Failed to fetch schema: ${status} ${statusText}`, which contains the
status code.  The second variant ignores the HTTP status entirely — its
outcome is a function of the parsed body alone, so a non-success status with
a JSON body can end Ready, and any error message comes from parse/resolve,
not from the status. -/
theorem fetchSchema_status_handling :
    (∀ (resolve : Json → Except String Json) (resp : FetchResponse), resp.ok = false →
      fetchSchemaV1 resolve resp
        = .error ("Failed to fetch schema: " ++ toString resp.status ++ " " ++ resp.statusText))
    ∧ (∀ (resolve : Json → Except String Json) (b : Except String Json)
        (ok1 : Bool) (st1 : Nat) (sx1 : String) (ok2 : Bool) (st2 : Nat) (sx2 : String),
        fetchSchemaV2 resolve (FetchResponse.mk ok1 st1 sx1 b)
          = fetchSchemaV2 resolve (FetchResponse.mk ok2 st2 sx2 b)) := by
  constructor
  · intro resolve resp h
    simp [fetchSchemaV1, h]
  · intro resolve b ok1 st1 sx1 ok2 st2 sx2
    rfl

/-- Witness for C9 (amended) at a concrete 404 response. -/
theorem fetchSchema_status_handling_witness :
    fetchSchemaV1 (fun j => .ok j) (FetchResponse.mk false 404 "Not Found" (.ok .null))
      = .error ("Failed to fetch schema: " ++ toString 404 ++ " " ++ "Not Found")
    ∧ fetchSchemaV2 (fun j => .ok j) (FetchResponse.mk true 200 "OK" (.ok .null))
      = fetchSchemaV2 (fun j => .ok j) (FetchResponse.mk false 404 "Not Found" (.ok .null)) :=
  ⟨fetchSchema_status_handling.1 (fun j => .ok j)
      (FetchResponse.mk false 404 "Not Found" (.ok .null)) rfl,
   fetchSchema_status_handling.2 (fun j => .ok j) (.ok .null) true 200 "OK" false 404 "Not Found"⟩

/-- Claim C10: the defensive placeholder covers only non-array `examples`
values; an empty array reaches the single-example branch, whose
`parseContent(examples[0])` call receives `undefined` and throws a
`TypeError` — producing neither the placeholder, nor a tab group, nor a
tabless example. -/
theorem markdownCodeSeparator_empty_array_error :
    markdownCodeSeparator (some []) = .jsTypeError
    ∧ markdownCodeSeparator none = .placeholder
    ∧ (∀ l : List String, markdownCodeSeparator (some l) ≠ .placeholder) := by
  refine ⟨rfl, rfl, ?_⟩
  intro l
  cases l with
  | nil => simp [markdownCodeSeparator]
  | cons e rest =>
    simp only [markdownCodeSeparator]
    split <;> simp
